import Mathlib

/-!
Shallow embedding of the XPS conversion service (src/main.py) and proofs of
the spec claims.  The service wraps an external paginated-document backend
(PyMuPDF / PIL / python-docx); the backend is modelled abstractly through
the contract the spec gives it (page text, pixmap, search, redact/insert),
while everything the repository's own code does — loop structure, string
formatting, error mapping, validation, and the try/except/finally resource
discipline — is translated faithfully from src/main.py.

Layout: all definitions first, then the lemmas and claim theorems.
-/

namespace XpsService

/-! ## Backend data model (spec §3, §4.2) -/

/-- A rasterized page: `pix.width`, `pix.height`, `pix.samples` as exposed by
`page.get_pixmap()` in the backend. Sample bytes are modelled as naturals. -/
structure Pixmap where
  width : Nat
  height : Nat
  samples : List Nat
deriving DecidableEq, Repr

/-- One located occurrence of a search string on a page: the rectangle
`(x0, y0, x1, y1)` returned by `page.search_for`.  Coordinates are opaque to
the service; they are only carried from search to redact/insert. -/
structure TextInstance where
  x0 : Rat
  y0 : Rat
  x1 : Rat
  y1 : Rat
deriving DecidableEq, Repr

/-- A page of an opened document, as the backend contract exposes it to the
service: extractable text (`page.get_text()`), a rasterization
(`page.get_pixmap()`), and literal text search (`page.search_for`). -/
structure Page where
  text : String
  pixmap : Pixmap
  searchFor : String → List TextInstance

instance : Inhabited Page := ⟨{ text := "", pixmap := ⟨0, 0, []⟩, searchFor := fun _ => [] }⟩

/-- An opened document handle: ordered pages fixed at open time and a
key-value metadata mapping (`doc.metadata`). -/
structure Doc where
  metadata : List (String × String)
  pages : List Page

/-- `doc.load_page(i)`.  The service only calls it with `i < len(doc)`
(it always iterates `range(len(doc))`), so a default page for the
out-of-range case is never reached. -/
def Doc.load_page (doc : Doc) (i : Nat) : Page :=
  doc.pages.getD i default

/-! ## read_xps (src/main.py lines 108-135) -/

/-- The literal page separator appended after every page's text. -/
def pageBreakSeparator : String := "\n\n--- Page Break ---\n\n"

/-- The loop of `read_xps`:
`for page_num in range(len(doc)): text_content += page.get_text() + sep`. -/
def read_xps_text (doc : Doc) : String :=
  (List.range doc.pages.length).foldl
    (fun text_content page_num =>
      text_content ++ ((doc.load_page page_num).text ++ pageBreakSeparator))
    ""

/-- The JSON payload `{metadata, page_count, text}` returned by `read_xps`
on success, as a triple. -/
def read_xps_payload (doc : Doc) : List (String × String) × Nat × String :=
  (doc.metadata, doc.pages.length, read_xps_text doc)

/-- Concatenation of a list of strings, front to back. -/
def concatStrings : List String → String
  | [] => ""
  | s :: rest => s ++ concatStrings rest

/-! ## convert_xps, images branch (src/main.py lines 73-89) -/

/-- One entry of the in-memory ZIP archive: name and stored bytes. -/
structure ZipEntry where
  name : String
  data : List Nat
deriving DecidableEq, Repr

/-- The images branch of `convert_xps`: for each page index i in
`range(len(doc))`, `pix = page.get_pixmap()`, the PIL round-trip
`Image.frombytes("RGB", [pix.width, pix.height], pix.samples)` saved as PNG
(modelled by the abstract encoder `pngEncode` applied to mode, size and
samples — PNG encoding itself lives in PIL, outside this repository), and
`zipf.writestr` of entry name `"page_" + str(i+1) + ".png"`, appended to the
archive in loop order. -/
def convert_images (pngEncode : String → Nat × Nat → List Nat → List Nat)
    (doc : Doc) : List ZipEntry :=
  (List.range doc.pages.length).foldl
    (fun zipf i =>
      let page := doc.load_page i
      let pix := page.pixmap
      zipf ++ [{ name := "page_" ++ toString (i + 1) ++ ".png",
                 data := pngEncode "RGB" (pix.width, pix.height) pix.samples }])
    []

/-! ## convert_xps, docx branch (src/main.py lines 91-99) -/

/-- The observable content of the produced word-processing document, in
document order: python-docx starts from an empty body, `add_paragraph`
appends a paragraph, `add_page_break` appends an explicit page break. -/
inductive DocxItem where
  | paragraph (text : String)
  | pageBreak
deriving DecidableEq, Repr

/-- Whether an item is a paragraph. -/
def DocxItem.isPara : DocxItem → Bool
  | .paragraph _ => true
  | .pageBreak => false

/-- Whether an item is a page break. -/
def DocxItem.isBreak : DocxItem → Bool
  | .paragraph _ => false
  | .pageBreak => true

/-- The docx branch of `convert_xps`: for each page index i in
`range(len(doc))`, `word_doc.add_paragraph(doc.load_page(i).get_text())`,
then `word_doc.add_page_break()` when `i < len(doc) - 1`. -/
def convert_docx (doc : Doc) : List DocxItem :=
  (List.range doc.pages.length).foldl
    (fun word_doc i =>
      let text := (doc.load_page i).text
      let word_doc := word_doc ++ [DocxItem.paragraph text]
      if i < doc.pages.length - 1 then word_doc ++ [DocxItem.pageBreak] else word_doc)
    []

/-! ## edit_xps page pipeline (src/main.py lines 184-208) -/

/-- The destructive page primitives of the backend (spec §4.2): adding a
redaction annotation, applying pending redactions, and inserting text at a
point with a font size and an RGB color.  They are opaque to the service,
which only sequences them. -/
structure Backend where
  addRedactAnnot : Page → TextInstance → Page
  applyRedactions : Page → Page
  insertText : Page → Rat × Rat → String → Nat → Nat × Nat × Nat → Page

/-- The per-page body of `edit_xps` (lines 188-199): compute
`text_instances = page.search_for(old_text)` once, then for each instance in
that order `page.add_redact_annot(inst)`, `page.apply_redactions()`, and
`page.insert_text((inst.x0, inst.y0), new_text, fontsize=11, color=(0,0,0))`,
threading the mutated page through. -/
def edit_page (B : Backend) (old_text new_text : String) (page : Page) : Page :=
  (page.searchFor old_text).foldl
    (fun page inst =>
      let page := B.addRedactAnnot page inst
      let page := B.applyRedactions page
      B.insertText page (inst.x0, inst.y0) new_text 11 (0, 0, 0))
    page

/-- The whole-document effect of the `edit_xps` page loop (lines 187-199):
pages are processed for `page_num in range(len(doc))` and mutated in place;
metadata is untouched. -/
def edit_doc (B : Backend) (old_text new_text : String) (doc : Doc) : Doc :=
  { doc with pages := doc.pages.map (edit_page B old_text new_text) }

/-- One backend call issued by the `edit_xps` pipeline, in issue order. -/
inductive EditOp where
  | search (page : Nat) (needle : String)
  | addRedact (page : Nat) (inst : TextInstance)
  | applyRedactions (page : Nat)
  | insertText (page : Nat) (point : Rat × Rat) (text : String)
      (fontsize : Nat) (color : Nat × Nat × Nat)
  | savePdf (filename : String)
deriving DecidableEq, Repr

/-- The page an operation touches, if any. -/
def EditOp.pageOf : EditOp → Option Nat
  | .search i _ => some i
  | .addRedact i _ => some i
  | .applyRedactions i => some i
  | .insertText i _ _ _ _ => some i
  | .savePdf _ => none

/-- The sequence of backend calls issued by `edit_xps` (lines 187-203),
translated loop for loop: for each `page_num in range(len(doc))` search the
page, then for each returned instance add a redaction annotation, apply
redactions, and insert the new text at `(inst.x0, inst.y0)` with
`fontsize=11, color=(0,0,0)`; finally save to
`"edited_" + uuid + ".pdf"` (`u` is the generated uuid). -/
def edit_xps_ops (old_text new_text u : String) (doc : Doc) : List EditOp :=
  ((List.range doc.pages.length).foldl
    (fun ops page_num =>
      let page := doc.load_page page_num
      let text_instances := page.searchFor old_text
      text_instances.foldl
        (fun ops inst =>
          ops ++ [EditOp.addRedact page_num inst,
                  EditOp.applyRedactions page_num,
                  EditOp.insertText page_num (inst.x0, inst.y0) new_text 11 (0, 0, 0)])
        (ops ++ [EditOp.search page_num old_text]))
    [])
  ++ [EditOp.savePdf ("edited_" ++ u ++ ".pdf")]

/-- Modelled from the spec (§4.4, claim C6 wording): for each page 0..N-1 in
ascending order, search for old_text; for every returned TextInstance, in
search order, first redact that instance's rectangle then insert new_text at
its anchor `(x0, y0)` with size 11 and black color; afterwards save the
handle as `edited_uuid.pdf`. -/
def edit_spec_ops (old_text new_text u : String) (doc : Doc) : List EditOp :=
  ((List.range doc.pages.length).flatMap
    (fun i =>
      EditOp.search i old_text
        :: ((doc.load_page i).searchFor old_text).flatMap
            (fun inst =>
              [EditOp.addRedact i inst,
               EditOp.applyRedactions i,
               EditOp.insertText i (inst.x0, inst.y0) new_text 11 (0, 0, 0)])))
  ++ [EditOp.savePdf ("edited_" ++ u ++ ".pdf")]

/-! ## Request orchestration (validation, try/except/finally) -/

/-- HTTP-level outcome of one request: a successful artifact, or a raised
HTTPException with status code and detail string. -/
inductive Resp (α : Type) where
  | ok (a : α)
  | httpError (status : Nat) (detail : String)

/-- The status code a response reports (FastAPI returns 200 for a plain
successful return value). -/
def Resp.statusOf {α : Type} : Resp α → Nat
  | .ok _ => 200
  | .httpError s _ => s

/-- Resource events of one request, in order of occurrence. -/
inductive Ev where
  | saveInput      -- save_file writes the uploaded bytes to the input path
  | openAttempt    -- fitz.open(input_path) is attempted
  | closeDoc       -- doc.close() in the finally block
  | removeInput    -- cleanup(input_path): os.remove if the file exists
deriving DecidableEq, Repr

/-- Python `file.filename.lower().endswith(".xps")` (lines 59, 111, 140, 179),
on the filename's character sequence: lowercase every character, then test
for the ".xps" suffix (the extension itself is pure ASCII). -/
def endsWithXps (filename : String) : Bool :=
  ".xps".data.isSuffixOf (filename.data.map Char.toLower)

/-- The `finally` block shared by all four endpoints (e.g. lines 103-106):
`if doc: doc.close()` then `cleanup(input_path)`.  `doc` is None until
`fitz.open` returns, so the conditional close fires exactly when a handle
was successfully opened (an opened handle is truthy; spec §4.2 reads this as
scoped acquisition with guaranteed release). -/
def finallyEvents (doc : Option Doc) : List Ev :=
  (match doc with
   | some _ => [Ev.closeDoc]
   | none => []) ++ [Ev.removeInput]

/-- Shared shape of the four endpoint handlers after their leading checks:
`input_path = await save_file(file); doc = None; try: doc = fitz.open(...);
<pipeline>; except Exception as e: raise HTTPException(500, msg + ": " +
str(e)); finally: if doc: doc.close(); cleanup(input_path)`.
Backend failures are modelled by `Except String` results: `.error e` is a
raised exception whose `str(e)` is `e`.  The filename check
(`raise HTTPException(400, "Only .xps files are allowed")`) precedes the
save, so a failed check produces no events at all. -/
def runEndpoint {α : Type} (extOk : Bool) (openRes : Except String Doc)
    (pipeline : Doc → Except String α) (errorMsg : String) : Resp α × List Ev :=
  if extOk = false then
    (Resp.httpError 400 "Only .xps files are allowed", [])
  else
    match openRes with
    | Except.error e =>
        (Resp.httpError 500 (errorMsg ++ ": " ++ e),
          [Ev.saveInput, Ev.openAttempt] ++ finallyEvents none)
    | Except.ok doc =>
        match pipeline doc with
        | Except.ok a =>
            (Resp.ok a, [Ev.saveInput, Ev.openAttempt] ++ finallyEvents (some doc))
        | Except.error e =>
            (Resp.httpError 500 (errorMsg ++ ": " ++ e),
              [Ev.saveInput, Ev.openAttempt] ++ finallyEvents (some doc))

/-- The conversion-type dictionary of line 32 as an association list. -/
def SUPPORTED_CONVERSIONS : List (String × String) :=
  [("pdf", "application/pdf"),
   ("images", "application/zip"),
   ("docx", "application/vnd.openxmlformats-officedocument.wordprocessingml.document")]

/-- POST /convert/conversion_type (lines 53-106): first the
conversion-type check (400 whose detail enumerates the allowed keys —
abbreviated here), then the filename check, then the shared skeleton with
message head "Conversion failed". -/
def convert_xps_run {α : Type} (conversion_type filename : String)
    (openRes : Except String Doc) (pipeline : Doc → Except String α) :
    Resp α × List Ev :=
  if (SUPPORTED_CONVERSIONS.lookup conversion_type).isNone then
    (Resp.httpError 400 "Unsupported conversion", [])
  else
    runEndpoint (endsWithXps filename) openRes pipeline "Conversion failed"

/-- POST /read-xps (lines 108-135). -/
def read_xps_run {α : Type} (filename : String) (openRes : Except String Doc)
    (pipeline : Doc → Except String α) : Resp α × List Ev :=
  runEndpoint (endsWithXps filename) openRes pipeline "Failed to read XPS"

/-- POST /preview-all (lines 137-170). -/
def preview_all_run {α : Type} (filename : String) (openRes : Except String Doc)
    (pipeline : Doc → Except String α) : Resp α × List Ev :=
  runEndpoint (endsWithXps filename) openRes pipeline "Failed to generate preview"

/-- POST /edit-xps (lines 172-214). -/
def edit_xps_run {α : Type} (filename : String) (openRes : Except String Doc)
    (pipeline : Doc → Except String α) : Resp α × List Ev :=
  runEndpoint (endsWithXps filename) openRes pipeline "Failed to edit XPS"

/-- Whether the request's input file still exists in the uploads area after
the request, replaying the events: save_file creates it, cleanup removes it. -/
def inputFileExistsAfter (evs : List Ev) : Bool :=
  evs.foldl
    (fun ex e =>
      match e with
      | Ev.saveInput => true
      | Ev.removeInput => false
      | _ => ex)
    false

/-! ## save_file (src/main.py lines 39-45) -/

/-- Line 18. -/
def UPLOAD_FOLDER : String := "uploads"

/-- `os.path.join` on the posix paths this service builds. -/
def os_path_join (a b : String) : String := a ++ "/" ++ b

/-- An upload as the handler sees it: declared filename and byte content. -/
structure UploadFile where
  filename : String
  content : List Nat

/-- `save_file` (lines 39-45): `safe_filename = str(uuid.uuid4()) + ".xps"`,
`input_path = os.path.join(UPLOAD_FOLDER, safe_filename)`, write the bytes,
return the path.  `u` is the freshly generated identifier; the result is the
returned path together with the bytes written there. -/
def save_file (u : String) (file : UploadFile) : String × List Nat :=
  let safe_filename := u ++ ".xps"
  let input_path := os_path_join UPLOAD_FOLDER safe_filename
  (input_path, file.content)

/-! ## Concrete sample objects used by the witnesses -/

/-- A page with no match for any needle. -/
def samplePage : Page :=
  { text := "hello world", pixmap := ⟨2, 1, [0, 1, 2, 3, 4, 5]⟩,
    searchFor := fun _ => [] }

/-- A one-page document. -/
def sampleDoc : Doc :=
  { metadata := [("title", "t")], pages := [samplePage] }

/-- A document with no pages. -/
def emptyDoc : Doc :=
  { metadata := [], pages := [] }

/-- A backend whose destructive primitives are identities; only used to
instantiate theorems at a concrete point. -/
def sampleBackend : Backend :=
  { addRedactAnnot := fun p _ => p,
    applyRedactions := fun p => p,
    insertText := fun p _ _ _ _ => p }

/-- A trivial PNG encoder used to instantiate theorems at a concrete point. -/
def sampleEncoder : String → Nat × Nat → List Nat → List Nat :=
  fun _ _ samples => samples

/-! ## Generic loop lemmas -/

theorem foldl_append_blocks {α β : Type} (g : α → List β) :
    ∀ (l : List α) (init : List β),
      l.foldl (fun acc x => acc ++ g x) init = init ++ l.flatMap g := by
  intro l
  induction l with
  | nil => intro init; simp
  | cons a t ih => intro init; simp [List.foldl_cons, ih]

theorem foldl_append_strings (g : Nat → String) :
    ∀ (l : List Nat) (init : String),
      l.foldl (fun acc x => acc ++ g x) init = init ++ concatStrings (l.map g) := by
  intro l
  induction l with
  | nil => intro init; simp [concatStrings]
  | cons a t ih =>
      intro init
      simp [List.foldl_cons, ih, concatStrings, String.append_assoc]

theorem map_range_getD {α : Type} (d : α) (g : α → β) :
    ∀ l : List α, (List.range l.length).map (fun i => g (l.getD i d)) = l.map g := by
  intro l
  induction l with
  | nil => simp
  | cons a t ih =>
      rw [List.length_cons, List.range_succ_eq_map, List.map_cons, List.map_map, List.map_cons]
      have hcomp : ((fun i => g ((a :: t).getD i d)) ∘ Nat.succ) = fun i => g (t.getD i d) := by
        funext i
        simp [List.getD_cons_succ]
      rw [hcomp, ih]
      rfl

theorem foldl_append_singleton {α β : Type} (f : α → β) :
    ∀ (l : List α) (init : List β),
      l.foldl (fun acc x => acc ++ [f x]) init = init ++ l.map f := by
  intro l
  induction l with
  | nil => intro init; simp
  | cons a t ih => intro init; simp [List.foldl_cons, ih]

/-! ## C1 -/

/-- C1: the /read-xps payload is `{metadata, page_count = N, text}` where the
text is the concatenation, in ascending page order, of every page's extracted
text each followed by the literal separator, so the separator is appended
exactly N times, once after every page including the last. -/
theorem read_xps_payload_contract (doc : Doc) :
    read_xps_payload doc =
      (doc.metadata, doc.pages.length,
        concatStrings (doc.pages.map (fun p => p.text ++ pageBreakSeparator))) := by
  unfold read_xps_payload read_xps_text
  rw [show (fun (text_content : String) (page_num : Nat) =>
        text_content ++ ((doc.load_page page_num).text ++ pageBreakSeparator))
      = (fun (acc : String) (i : Nat) =>
        acc ++ ((doc.load_page i).text ++ pageBreakSeparator)) from rfl]
  rw [foldl_append_strings (fun i => (doc.load_page i).text ++ pageBreakSeparator)
        (List.range doc.pages.length) ""]
  rw [String.empty_append]
  unfold Doc.load_page
  rw [map_range_getD default (fun p => p.text ++ pageBreakSeparator) doc.pages]

/-! ## C2 -/

/-- C2: the images ZIP has exactly N entries, named `page_1.png` … `page_N.png`
in strictly ascending page order, each entry the PNG encoding of that page's
rasterization at the pixmap's reported width and height. -/
theorem convert_images_contract (pngEncode : String → Nat × Nat → List Nat → List Nat)
    (doc : Doc) :
    (convert_images pngEncode doc).length = doc.pages.length
    ∧ (convert_images pngEncode doc).map ZipEntry.name
        = (List.range doc.pages.length).map (fun i => "page_" ++ toString (i + 1) ++ ".png")
    ∧ (convert_images pngEncode doc).map ZipEntry.data
        = doc.pages.map (fun p =>
            pngEncode "RGB" (p.pixmap.width, p.pixmap.height) p.pixmap.samples) := by
  have hform : convert_images pngEncode doc
      = (List.range doc.pages.length).map
          (fun i => ({ name := "page_" ++ toString (i + 1) ++ ".png",
                       data := pngEncode "RGB"
                         ((doc.load_page i).pixmap.width, (doc.load_page i).pixmap.height)
                         (doc.load_page i).pixmap.samples } : ZipEntry)) := by
    unfold convert_images
    rw [foldl_append_singleton
          (fun i => ({ name := "page_" ++ toString (i + 1) ++ ".png",
                       data := pngEncode "RGB"
                         ((doc.load_page i).pixmap.width, (doc.load_page i).pixmap.height)
                         (doc.load_page i).pixmap.samples } : ZipEntry))
          (List.range doc.pages.length) []]
    rw [List.nil_append]
  refine ⟨?_, ?_, ?_⟩
  · rw [hform]; simp
  · rw [hform, List.map_map]
    rfl
  · rw [hform, List.map_map]
    unfold Doc.load_page
    rw [show ((ZipEntry.data ∘ fun i =>
          ({ name := "page_" ++ toString (i + 1) ++ ".png",
             data := pngEncode "RGB"
               ((doc.pages.getD i default).pixmap.width, (doc.pages.getD i default).pixmap.height)
               (doc.pages.getD i default).pixmap.samples } : ZipEntry)))
        = fun i => (fun p : Page =>
            pngEncode "RGB" (p.pixmap.width, p.pixmap.height) p.pixmap.samples)
            (doc.pages.getD i default) from rfl]
    exact map_range_getD default
      (fun p : Page => pngEncode "RGB" (p.pixmap.width, p.pixmap.height) p.pixmap.samples)
      doc.pages

/-! ## C3 -/

theorem flatMap_range_docx (ts : List String) :
    (List.range ts.length).flatMap
        (fun i => DocxItem.paragraph (ts.getD i "")
          :: (if i < ts.length - 1 then [DocxItem.pageBreak] else []))
      = List.intersperse DocxItem.pageBreak (ts.map DocxItem.paragraph) := by
  induction ts with
  | nil => simp
  | cons a t ih =>
      cases t with
      | nil => simp [List.range_succ]
      | cons b t2 =>
          rw [List.length_cons, List.range_succ_eq_map, List.flatMap_cons, List.flatMap_map]
          simp only [Nat.add_sub_cancel]
          have hhead : (DocxItem.paragraph ((a :: b :: t2).getD 0 "")
              :: (if 0 < (b :: t2).length then [DocxItem.pageBreak] else []))
              = [DocxItem.paragraph a, DocxItem.pageBreak] := by
            simp
          have hbody : (fun i => DocxItem.paragraph ((a :: b :: t2).getD (Nat.succ i) "")
                :: (if Nat.succ i < (b :: t2).length then [DocxItem.pageBreak] else []))
              = (fun i => DocxItem.paragraph ((b :: t2).getD i "")
                :: (if i < (b :: t2).length - 1 then [DocxItem.pageBreak] else [])) := by
            funext i
            have hc : (Nat.succ i < (b :: t2).length) ↔ (i < (b :: t2).length - 1) := by
              simp only [List.length_cons]
              omega
            simp only [List.getD_cons_succ, hc]
          rw [hhead, hbody, ih]
          simp [List.intersperse_cons_cons]

theorem countP_intersperse_breaks (l : List DocxItem)
    (hl : ∀ x ∈ l, DocxItem.isPara x = true) :
    (List.intersperse DocxItem.pageBreak l).countP DocxItem.isPara = l.length
    ∧ (List.intersperse DocxItem.pageBreak l).countP DocxItem.isBreak = l.length - 1 := by
  induction l with
  | nil => simp
  | cons a t ih =>
      cases t with
      | nil =>
          have ha : DocxItem.isPara a = true := hl a (by simp)
          have hane : DocxItem.isBreak a = false := by
            cases a with
            | paragraph s => rfl
            | pageBreak => exact absurd ha (by decide)
          constructor
          · rw [List.intersperse_singleton]
            simp [List.countP_cons, ha]
          · rw [List.intersperse_singleton]
            simp [List.countP_cons, hane]
      | cons b t2 =>
          have ha : DocxItem.isPara a = true := hl a (by simp)
          have hane : DocxItem.isBreak a = false := by
            cases a with
            | paragraph s => rfl
            | pageBreak => exact absurd ha (by decide)
          have ih2 := ih (fun x hx => hl x (List.mem_cons_of_mem a hx))
          rw [List.intersperse_cons_cons]
          constructor
          · rw [List.countP_cons, List.countP_cons, ih2.1]
            have hb : DocxItem.isPara DocxItem.pageBreak = false := rfl
            rw [ha, hb]
            simp only [eq_self_iff_true, Bool.false_eq_true, if_true, if_false, List.length_cons]
          · rw [List.countP_cons, List.countP_cons, ih2.2]
            have hb : DocxItem.isBreak DocxItem.pageBreak = true := rfl
            rw [hane, hb]
            simp only [eq_self_iff_true, Bool.false_eq_true, if_true, if_false, List.length_cons]
            omega

/-- C3: the docx export contains, in ascending page order, one paragraph per
page holding that page's extracted text, with an explicit page break after
every paragraph except the last: N paragraphs and N - 1 page breaks
(truncated subtraction, so 0 breaks when N = 0, matching the loop guard). -/
theorem convert_docx_contract (doc : Doc) :
    convert_docx doc
        = List.intersperse DocxItem.pageBreak
            (doc.pages.map (fun p => DocxItem.paragraph p.text))
    ∧ (convert_docx doc).countP DocxItem.isPara = doc.pages.length
    ∧ (convert_docx doc).countP DocxItem.isBreak = doc.pages.length - 1 := by
  have hform : convert_docx doc
      = (List.range doc.pages.length).flatMap
          (fun i => DocxItem.paragraph ((doc.pages.map Page.text).getD i "")
            :: (if i < doc.pages.length - 1 then [DocxItem.pageBreak] else [])) := by
    unfold convert_docx
    have hbody : (fun (word_doc : List DocxItem) (i : Nat) =>
          let text := (doc.load_page i).text
          let word_doc := word_doc ++ [DocxItem.paragraph text]
          if i < doc.pages.length - 1 then word_doc ++ [DocxItem.pageBreak] else word_doc)
        = (fun (acc : List DocxItem) (i : Nat) =>
            acc ++ (DocxItem.paragraph ((doc.pages.map Page.text).getD i "")
              :: (if i < doc.pages.length - 1 then [DocxItem.pageBreak] else []))) := by
      funext acc i
      have htext : (doc.load_page i).text = (doc.pages.map Page.text).getD i "" := by
        unfold Doc.load_page
        by_cases h : i < doc.pages.length
        · rw [List.getD_eq_getElem _ _ h, List.getD_eq_getElem _ _ (by simpa using h)]
          simp
        · rw [List.getD_eq_default _ _ (by omega),
              List.getD_eq_default _ _ (by simpa using not_lt.mp (by omega))]
          rfl
      by_cases hc : i < doc.pages.length - 1 <;> simp [htext, hc]
    rw [hbody]
    rw [foldl_append_blocks
          (fun i => DocxItem.paragraph ((doc.pages.map Page.text).getD i "")
            :: (if i < doc.pages.length - 1 then [DocxItem.pageBreak] else []))
          (List.range doc.pages.length) []]
    rw [List.nil_append]
  have hlen : doc.pages.length = (doc.pages.map Page.text).length := by simp
  have hinter : convert_docx doc
      = List.intersperse DocxItem.pageBreak
          (doc.pages.map (fun p => DocxItem.paragraph p.text)) := by
    rw [hform]
    have := flatMap_range_docx (doc.pages.map Page.text)
    rw [hlen]
    rw [this, List.map_map]
    rfl
  have hcnt := countP_intersperse_breaks
      (doc.pages.map (fun p => DocxItem.paragraph p.text))
      (by intro x hx
          rcases List.mem_map.mp hx with ⟨p, _, hp⟩
          rw [← hp]
          rfl)
  refine ⟨hinter, ?_, ?_⟩
  · rw [hinter, hcnt.1, List.length_map]
  · rw [hinter, hcnt.2, List.length_map]

/-! ## C4 -/

/-- C4: when old_text is the empty string or occurs on no page — so the
backend's literal substring search returns no instance anywhere (spec §4.2:
search is literal substring match, empty on no match, and the empty-needle
edge case succeeds with no instances) — the edit operation succeeds and the
produced document, in particular every page's extracted text, is unchanged. -/
theorem edit_xps_no_occurrence_frame (B : Backend) (doc : Doc)
    (old_text new_text : String)
    (hsearch : ∀ p ∈ doc.pages,
      (old_text = "" ∨ ¬ (old_text.data <:+: p.text.data)) →
        p.searchFor old_text = [])
    (hnone : old_text = "" ∨ ∀ p ∈ doc.pages, ¬ (old_text.data <:+: p.text.data)) :
    edit_doc B old_text new_text doc = doc
    ∧ (edit_doc B old_text new_text doc).pages.map Page.text
        = doc.pages.map Page.text := by
  have hempty : ∀ p ∈ doc.pages, p.searchFor old_text = [] := by
    intro p hp
    apply hsearch p hp
    rcases hnone with h | h
    · exact Or.inl h
    · exact Or.inr (h p hp)
  have hpage : ∀ p ∈ doc.pages, edit_page B old_text new_text p = p := by
    intro p hp
    unfold edit_page
    rw [hempty p hp]
    rfl
  have hmap : doc.pages.map (edit_page B old_text new_text) = doc.pages := by
    rw [List.map_congr_left hpage]
    simp
  have hdoc : edit_doc B old_text new_text doc = doc := by
    unfold edit_doc
    rw [hmap]
  exact ⟨hdoc, by rw [hdoc]⟩

theorem edit_xps_no_occurrence_frame_witness :
    edit_doc sampleBackend "zzz" "Final" sampleDoc = sampleDoc
    ∧ (edit_doc sampleBackend "zzz" "Final" sampleDoc).pages.map Page.text
        = sampleDoc.pages.map Page.text :=
  edit_xps_no_occurrence_frame sampleBackend sampleDoc "zzz" "Final"
    (by intro p hp h
        have hp2 : p = samplePage := by
          simpa [sampleDoc] using hp
        subst hp2
        rfl)
    (Or.inr (by
        intro p hp
        have hp2 : p = samplePage := by
          simpa [sampleDoc] using hp
        subst hp2
        decide))

/-! ## C6 -/

/-- C6: the edit pipeline processes pages in ascending index order; on each
page it searches for old_text and, for every returned instance in search
order, first redacts that instance's rectangle and then inserts new_text at
`(x0, y0)` with font size 11 and black color; pages with no instance receive
no redact/insert call; finally the handle is saved as `edited_` ++ uuid ++
`.pdf`.  Stated as equality with the operation sequence transcribed from the
spec, plus the untouched-page property. -/
theorem edit_xps_ops_contract (old_text new_text u : String) (doc : Doc) :
    edit_xps_ops old_text new_text u doc = edit_spec_ops old_text new_text u doc
    ∧ (∀ i, (doc.load_page i).searchFor old_text = [] →
        ∀ op ∈ edit_xps_ops old_text new_text u doc, op.pageOf = some i →
          op = EditOp.search i old_text) := by
  have hmain : edit_xps_ops old_text new_text u doc
      = edit_spec_ops old_text new_text u doc := by
    unfold edit_xps_ops edit_spec_ops
    congr 1
    have hbody : (fun (ops : List EditOp) (page_num : Nat) =>
          let page := doc.load_page page_num
          let text_instances := page.searchFor old_text
          text_instances.foldl
            (fun ops inst =>
              ops ++ [EditOp.addRedact page_num inst,
                      EditOp.applyRedactions page_num,
                      EditOp.insertText page_num (inst.x0, inst.y0) new_text 11 (0, 0, 0)])
            (ops ++ [EditOp.search page_num old_text]))
        = (fun (acc : List EditOp) (i : Nat) =>
            acc ++ (EditOp.search i old_text
              :: ((doc.load_page i).searchFor old_text).flatMap
                  (fun inst =>
                    [EditOp.addRedact i inst,
                     EditOp.applyRedactions i,
                     EditOp.insertText i (inst.x0, inst.y0) new_text 11 (0, 0, 0)]))) := by
      funext acc i
      show ((doc.load_page i).searchFor old_text).foldl _
            (acc ++ [EditOp.search i old_text]) = _
      rw [foldl_append_blocks
            (fun inst =>
              [EditOp.addRedact i inst,
               EditOp.applyRedactions i,
               EditOp.insertText i (inst.x0, inst.y0) new_text 11 (0, 0, 0)])
            ((doc.load_page i).searchFor old_text)
            (acc ++ [EditOp.search i old_text])]
      rw [List.append_assoc]
      rfl
    rw [hbody]
    rw [foldl_append_blocks
          (fun i =>
            EditOp.search i old_text
              :: ((doc.load_page i).searchFor old_text).flatMap
                  (fun inst =>
                    [EditOp.addRedact i inst,
                     EditOp.applyRedactions i,
                     EditOp.insertText i (inst.x0, inst.y0) new_text 11 (0, 0, 0)]))
          (List.range doc.pages.length) []]
    rw [List.nil_append]
  refine ⟨hmain, ?_⟩
  intro i hi op hop hpage
  rw [hmain] at hop
  unfold edit_spec_ops at hop
  rcases List.mem_append.mp hop with hin | hsave
  · rcases List.mem_flatMap.mp hin with ⟨j, hj, hblock⟩
    rcases List.mem_cons.mp hblock with rfl | hrest
    · have hj_eq : j = i := by
        simpa [EditOp.pageOf] using hpage
      rw [hj_eq]
    · rcases List.mem_flatMap.mp hrest with ⟨inst, hinst, hops⟩
      have hops2 : op = EditOp.addRedact j inst
          ∨ op = EditOp.applyRedactions j
          ∨ op = EditOp.insertText j (inst.x0, inst.y0) new_text 11 (0, 0, 0) := by
        simpa using hops
      have hj_eq : j = i := by
        rcases hops2 with rfl | rfl | rfl <;> simpa [EditOp.pageOf] using hpage
      rw [hj_eq] at hinst
      rw [hi] at hinst
      cases hinst
  · have hop2 : op = EditOp.savePdf ("edited_" ++ u ++ ".pdf") := by
      simpa using hsave
    rw [hop2] at hpage
    simp [EditOp.pageOf] at hpage

theorem edit_xps_ops_contract_witness :
    edit_xps_ops "Draft" "Final" "u1" sampleDoc
      = edit_spec_ops "Draft" "Final" "u1" sampleDoc :=
  (edit_xps_ops_contract "Draft" "Final" "u1" sampleDoc).1

/-! ## C5 -/

/-- C5: for every request that saved an input file (i.e. passed validation,
the only way `Ev.saveInput` is emitted), cleanup is unconditional on every
exit path: the input file no longer exists afterwards and was removed exactly
once, and the handle is closed exactly once if and only if the open
succeeded. -/
theorem cleanup_unconditional {α : Type} (extOk : Bool) (openRes : Except String Doc)
    (pipeline : Doc → Except String α) (errorMsg : String)
    (hsaved : Ev.saveInput ∈ (runEndpoint extOk openRes pipeline errorMsg).2) :
    inputFileExistsAfter (runEndpoint extOk openRes pipeline errorMsg).2 = false
    ∧ (runEndpoint extOk openRes pipeline errorMsg).2.count Ev.removeInput = 1
    ∧ (runEndpoint extOk openRes pipeline errorMsg).2.count Ev.closeDoc
        = (if openRes.isOk then 1 else 0) := by
  cases extOk with
  | false =>
      unfold runEndpoint at hsaved
      simp at hsaved
  | true =>
      cases openRes with
      | error e =>
          exact ⟨rfl, rfl, rfl⟩
      | ok doc =>
          have hred : (runEndpoint true (Except.ok doc) pipeline errorMsg).2
              = [Ev.saveInput, Ev.openAttempt, Ev.closeDoc, Ev.removeInput] := by
            show (match pipeline doc with
                  | Except.ok a =>
                      (Resp.ok a, [Ev.saveInput, Ev.openAttempt] ++ finallyEvents (some doc))
                  | Except.error e =>
                      (Resp.httpError 500 (errorMsg ++ ": " ++ e),
                        [Ev.saveInput, Ev.openAttempt] ++ finallyEvents (some doc))).2
                = [Ev.saveInput, Ev.openAttempt, Ev.closeDoc, Ev.removeInput]
            cases pipeline doc <;> rfl
          rw [hred]
          exact ⟨rfl, rfl, rfl⟩

theorem cleanup_unconditional_witness :
    Ev.saveInput ∈ (runEndpoint true (Except.ok emptyDoc)
        (fun d => Except.ok (read_xps_payload d)) "Failed to read XPS").2
    ∧ (inputFileExistsAfter (runEndpoint true (Except.ok emptyDoc)
          (fun d => Except.ok (read_xps_payload d)) "Failed to read XPS").2 = false
      ∧ (runEndpoint true (Except.ok emptyDoc)
          (fun d => Except.ok (read_xps_payload d)) "Failed to read XPS").2.count
            Ev.removeInput = 1
      ∧ (runEndpoint true (Except.ok emptyDoc)
          (fun d => Except.ok (read_xps_payload d)) "Failed to read XPS").2.count
            Ev.closeDoc
          = (if (Except.ok emptyDoc : Except String Doc).isOk then 1 else 0)) :=
  ⟨by decide,
   cleanup_unconditional true (Except.ok emptyDoc)
     (fun d => Except.ok (read_xps_payload d)) "Failed to read XPS" (by decide)⟩

/-! ## C7 -/

/-- C7: on each of the four POST endpoints, an uploaded filename that does
not end in ".xps" case-insensitively is rejected with a 400 error before any
input file is saved and before any open attempt (the request's event list is
empty).  On /convert this holds for every conversion_type: an unsupported
type also yields 400 before saving; a supported one reaches the filename
check. -/
theorem invalid_extension_rejected {α : Type} (conversion_type filename : String)
    (hext : endsWithXps filename = false)
    (openRes : Except String Doc) (pipeline : Doc → Except String α) :
    ((convert_xps_run conversion_type filename openRes pipeline).1.statusOf = 400
      ∧ (convert_xps_run conversion_type filename openRes pipeline).2 = [])
    ∧ ((read_xps_run filename openRes pipeline).1
          = Resp.httpError 400 "Only .xps files are allowed"
      ∧ (read_xps_run filename openRes pipeline).2 = [])
    ∧ ((preview_all_run filename openRes pipeline).1
          = Resp.httpError 400 "Only .xps files are allowed"
      ∧ (preview_all_run filename openRes pipeline).2 = [])
    ∧ ((edit_xps_run filename openRes pipeline).1
          = Resp.httpError 400 "Only .xps files are allowed"
      ∧ (edit_xps_run filename openRes pipeline).2 = []) := by
  refine ⟨?_, ?_, ?_, ?_⟩
  · unfold convert_xps_run
    cases hct : (SUPPORTED_CONVERSIONS.lookup conversion_type).isNone with
    | true => simp [hct, Resp.statusOf]
    | false => simp [hct, runEndpoint, hext, Resp.statusOf]
  · unfold read_xps_run runEndpoint
    rw [hext]
    exact ⟨rfl, rfl⟩
  · unfold preview_all_run runEndpoint
    rw [hext]
    exact ⟨rfl, rfl⟩
  · unfold edit_xps_run runEndpoint
    rw [hext]
    exact ⟨rfl, rfl⟩

theorem invalid_extension_rejected_witness :
    ((convert_xps_run "pdf" "report.txt" (Except.ok emptyDoc)
        (fun d => Except.ok (read_xps_payload d))).1.statusOf = 400
      ∧ (convert_xps_run "pdf" "report.txt" (Except.ok emptyDoc)
          (fun d => Except.ok (read_xps_payload d))).2 = [])
    ∧ ((read_xps_run "report.txt" (Except.ok emptyDoc)
          (fun d => Except.ok (read_xps_payload d))).1
            = Resp.httpError 400 "Only .xps files are allowed"
      ∧ (read_xps_run "report.txt" (Except.ok emptyDoc)
          (fun d => Except.ok (read_xps_payload d))).2 = [])
    ∧ ((preview_all_run "report.txt" (Except.ok emptyDoc)
          (fun d => Except.ok (read_xps_payload d))).1
            = Resp.httpError 400 "Only .xps files are allowed"
      ∧ (preview_all_run "report.txt" (Except.ok emptyDoc)
          (fun d => Except.ok (read_xps_payload d))).2 = [])
    ∧ ((edit_xps_run "report.txt" (Except.ok emptyDoc)
          (fun d => Except.ok (read_xps_payload d))).1
            = Resp.httpError 400 "Only .xps files are allowed"
      ∧ (edit_xps_run "report.txt" (Except.ok emptyDoc)
          (fun d => Except.ok (read_xps_payload d))).2 = []) :=
  invalid_extension_rejected "pdf" "report.txt" (by decide)
    (Except.ok emptyDoc) (fun d => Except.ok (read_xps_payload d))

/-! ## C8 -/

/-- C8: once validation passed, any exception raised in the pipeline — at
open or at any later step — yields a 500 error whose detail is the
endpoint-specific message head, a ": ", then the original error text:
"Conversion failed: e" on /convert, "Failed to read XPS: e" on /read-xps,
"Failed to generate preview: e" on /preview-all, "Failed to edit XPS: e"
on /edit-xps. -/
theorem backend_error_maps_to_500 {α : Type} (conversion_type filename e : String)
    (doc : Doc) (pipeline : Doc → Except String α)
    (hct : (SUPPORTED_CONVERSIONS.lookup conversion_type).isNone = false)
    (hext : endsWithXps filename = true)
    (hpipe : pipeline doc = Except.error e) :
    ((convert_xps_run conversion_type filename (Except.error e) pipeline).1
        = Resp.httpError 500 ("Conversion failed: " ++ e)
      ∧ (convert_xps_run conversion_type filename (Except.ok doc) pipeline).1
        = Resp.httpError 500 ("Conversion failed: " ++ e))
    ∧ ((read_xps_run filename (Except.error e) pipeline).1
        = Resp.httpError 500 ("Failed to read XPS: " ++ e)
      ∧ (read_xps_run filename (Except.ok doc) pipeline).1
        = Resp.httpError 500 ("Failed to read XPS: " ++ e))
    ∧ ((preview_all_run filename (Except.error e) pipeline).1
        = Resp.httpError 500 ("Failed to generate preview: " ++ e)
      ∧ (preview_all_run filename (Except.ok doc) pipeline).1
        = Resp.httpError 500 ("Failed to generate preview: " ++ e))
    ∧ ((edit_xps_run filename (Except.error e) pipeline).1
        = Resp.httpError 500 ("Failed to edit XPS: " ++ e)
      ∧ (edit_xps_run filename (Except.ok doc) pipeline).1
        = Resp.httpError 500 ("Failed to edit XPS: " ++ e)) := by
  refine ⟨⟨?_, ?_⟩, ⟨?_, ?_⟩, ⟨?_, ?_⟩, ⟨?_, ?_⟩⟩ <;>
    simp [convert_xps_run, read_xps_run, preview_all_run, edit_xps_run,
      runEndpoint, hct, hext, hpipe]

theorem backend_error_maps_to_500_witness :
    (convert_xps_run "docx" "A.XPS" (Except.error "boom")
        (fun (_ : Doc) => (Except.error "boom" : Except String Nat))).1
      = Resp.httpError 500 ("Conversion failed: " ++ "boom") :=
  (backend_error_maps_to_500 "docx" "A.XPS" "boom" emptyDoc
    (fun _ => Except.error "boom") (by decide) (by decide) rfl).1.1

/-! ## C9 -/

/-- C9: a valid zero-page document still succeeds on every operation: the
images ZIP has zero entries, the docx export has zero paragraphs and zero
page breaks (not -1), and the read payload reports page_count 0 with the
empty text (no separator). -/
theorem zero_page_document_contract
    (pngEncode : String → Nat × Nat → List Nat → List Nat)
    (doc : Doc) (hempty : doc.pages = []) :
    convert_images pngEncode doc = []
    ∧ convert_docx doc = []
    ∧ (convert_docx doc).countP DocxItem.isPara = 0
    ∧ (convert_docx doc).countP DocxItem.isBreak = 0
    ∧ read_xps_payload doc = (doc.metadata, 0, "") := by
  refine ⟨?_, ?_, ?_, ?_, ?_⟩ <;>
    simp [convert_images, convert_docx, read_xps_payload, read_xps_text, hempty]

theorem zero_page_document_contract_witness :
    convert_images sampleEncoder emptyDoc = []
    ∧ convert_docx emptyDoc = []
    ∧ (convert_docx emptyDoc).countP DocxItem.isPara = 0
    ∧ (convert_docx emptyDoc).countP DocxItem.isBreak = 0
    ∧ read_xps_payload emptyDoc = (emptyDoc.metadata, 0, "") :=
  zero_page_document_contract sampleEncoder emptyDoc rfl

/-! ## C10 -/

/-- C10: the saved input path is the uploads folder joined with the freshly
generated identifier plus the fixed ".xps" extension; it does not depend on
the client-supplied filename (which `save_file` never reads), and exactly the
upload's bytes are written there. -/
theorem save_file_path_contract (u : String) (f g : UploadFile) :
    (save_file u f).1 = os_path_join UPLOAD_FOLDER (u ++ ".xps")
    ∧ (save_file u f).1 = (save_file u g).1
    ∧ (save_file u f).2 = f.content :=
  ⟨rfl, rfl, rfl⟩

end XpsService
